import Mathlib

/-!
Verification development for the response-cache subsystem
(`tensorzero_internal/src/cache.rs`): cache-key fingerprinting over a
BLAKE3 digest, the narrow/wide key derivations, the cache read and write
paths, and the cache policy defaults.

Machine integers are modelled as `Nat` with explicit reduction modulo
`2 ^ 32` (resp. `2 ^ 64`) where overflow matters.  Fallible operations
return `Except`.
-/

/-! ## BLAKE3 (single-chunk case)

The source computes cache keys with `blake3::Hasher`.  We embed the BLAKE3
hash function following the official reference implementation
(`reference_impl.rs` of the BLAKE3 repository), restricted to inputs of at
most 1024 bytes (a single chunk, so no parent tree nodes are needed).
Every byte string hashed in this development is far below that bound. -/

def u32max : Nat := 4294967296

def add32 (a b : Nat) : Nat := (a + b) % u32max

def rotr32 (x n : Nat) : Nat := ((x >>> n) ||| (x <<< (32 - n))) % u32max

/-- BLAKE3 initialization vector (the SHA-256 IV words). -/
def blake3IV : List Nat :=
  [1779033703, 3144134277, 1013904242, 2773480762,
   1359893119, 2600822924, 528734635, 1541459225]

def CHUNK_START : Nat := 1

def CHUNK_END : Nat := 2

def ROOT : Nat := 8

/-- The quarter-round of the BLAKE3 compression function, acting on the
16-word state at positions `a b c d` with message words `mx my`. -/
def gMix (st : List Nat) (a b c d : Nat) (mx my : Nat) : List Nat :=
  let sa := add32 (add32 (st.getD a 0) (st.getD b 0)) mx
  let sd := rotr32 ((st.getD d 0) ^^^ sa) 16
  let sc := add32 (st.getD c 0) sd
  let sb := rotr32 ((st.getD b 0) ^^^ sc) 12
  let sa2 := add32 (add32 sa sb) my
  let sd2 := rotr32 (sd ^^^ sa2) 8
  let sc2 := add32 sc sd2
  let sb2 := rotr32 (sb ^^^ sc2) 7
  ((((st.set a sa2).set b sb2).set c sc2).set d sd2)

/-- One round of the BLAKE3 compression: mix columns, then diagonals. -/
def blake3Round (st m : List Nat) : List Nat :=
  let st := gMix st 0 4 8 12 (m.getD 0 0) (m.getD 1 0)
  let st := gMix st 1 5 9 13 (m.getD 2 0) (m.getD 3 0)
  let st := gMix st 2 6 10 14 (m.getD 4 0) (m.getD 5 0)
  let st := gMix st 3 7 11 15 (m.getD 6 0) (m.getD 7 0)
  let st := gMix st 0 5 10 15 (m.getD 8 0) (m.getD 9 0)
  let st := gMix st 1 6 11 12 (m.getD 10 0) (m.getD 11 0)
  let st := gMix st 2 7 8 13 (m.getD 12 0) (m.getD 13 0)
  gMix st 3 4 9 14 (m.getD 14 0) (m.getD 15 0)

/-- The BLAKE3 message-word permutation applied between rounds. -/
def blake3Permute (m : List Nat) : List Nat :=
  [m.getD 2 0, m.getD 6 0, m.getD 3 0, m.getD 10 0,
   m.getD 7 0, m.getD 0 0, m.getD 4 0, m.getD 13 0,
   m.getD 1 0, m.getD 11 0, m.getD 12 0, m.getD 5 0,
   m.getD 9 0, m.getD 14 0, m.getD 15 0, m.getD 8 0]

/-- The BLAKE3 compression function, truncated to the 8-word chaining
value (which is also the first 32 bytes of a root output, the only output
length this development uses). -/
def blake3Compress (cv block : List Nat) (counter blockLen flags : Nat) : List Nat :=
  let st0 := cv ++ [blake3IV.getD 0 0, blake3IV.getD 1 0, blake3IV.getD 2 0, blake3IV.getD 3 0,
    counter % u32max, (counter / u32max) % u32max, blockLen, flags]
  let m := block
  let st := blake3Round st0 m
  let m := blake3Permute m
  let st := blake3Round st m
  let m := blake3Permute m
  let st := blake3Round st m
  let m := blake3Permute m
  let st := blake3Round st m
  let m := blake3Permute m
  let st := blake3Round st m
  let m := blake3Permute m
  let st := blake3Round st m
  let m := blake3Permute m
  let st := blake3Round st m
  (List.range 8).map (fun i => (st.getD i 0) ^^^ (st.getD (i + 8) 0))

/-- Structural worker for `splitBlocks`: the fuel argument only bounds
the recursion depth (any fuel at least the message length is enough,
since every recursive step removes 64 bytes). -/
def splitBlocksAux : Nat → List Nat → List (List Nat)
  | 0, msg => [msg]
  | fuel + 1, msg =>
    if msg.length ≤ 64 then [msg]
    else msg.take 64 :: splitBlocksAux fuel (msg.drop 64)

/-- Split a byte string into 64-byte blocks; the final block may be
shorter, and an empty input yields one empty block. -/
def splitBlocks (msg : List Nat) : List (List Nat) :=
  splitBlocksAux msg.length msg

/-- Little-endian packing of a (zero-padded) byte block into 16 words. -/
def wordsOfBlock (block : List Nat) : List Nat :=
  (List.range 16).map (fun i =>
    block.getD (4 * i) 0 + 256 * block.getD (4 * i + 1) 0 +
    65536 * block.getD (4 * i + 2) 0 + 16777216 * block.getD (4 * i + 3) 0)

/-- Little-endian bytes of a 32-bit word. -/
def leBytesOfWord (w : Nat) : List Nat :=
  [w % 256, (w / 256) % 256, (w / 65536) % 256, (w / 16777216) % 256]

/-- Fold the blocks of a single chunk: every block but the last updates
the chaining value; the last carries CHUNK_END and ROOT and produces the
digest words.  `first` records whether the next block is the first of
the chunk (adding CHUNK_START). -/
def chunkFold (cv : List Nat) (first : Bool) : List (List Nat) → List Nat
  | [] => cv
  | [b] =>
      blake3Compress cv (wordsOfBlock b) 0 b.length
        ((if first then CHUNK_START else 0) + CHUNK_END + ROOT)
  | b :: b2 :: rest =>
      chunkFold
        (blake3Compress cv (wordsOfBlock b) 0 64 (if first then CHUNK_START else 0))
        false (b2 :: rest)

/-- The 32-byte BLAKE3 digest of a byte string of at most 1024 bytes
(single-chunk inputs; all inputs hashed in this development qualify). -/
def blake3OfBytes (msg : List Nat) : List Nat :=
  ((chunkFold blake3IV true (splitBlocks msg)).map leBytesOfWord).flatten

/-! ## UTF-8 byte encoding

In Rust, `str::as_bytes` exposes the UTF-8 encoding of a string; we encode
Lean strings the same way. -/

/-- UTF-8 encoding of a single scalar value. -/
def charUtf8 (c : Char) : List Nat :=
  let n := c.toNat
  if n < 128 then [n]
  else if n < 2048 then [192 + n / 64, 128 + n % 64]
  else if n < 65536 then [224 + n / 4096, 128 + (n / 64) % 64, 128 + n % 64]
  else [240 + n / 262144, 128 + (n / 4096) % 64, 128 + (n / 64) % 64, 128 + n % 64]

/-- UTF-8 bytes of a string (Rust `as_bytes`). -/
def strUtf8 (s : String) : List Nat :=
  s.data.flatMap charUtf8

/-! ## Error type

Embeds `Error` / `ErrorDetails` from `error.rs` restricted to the two
variants `cache.rs` constructs (`Cache` and `Serialization`). -/

inductive ErrorDetails where
  | Cache (message : String)
  | Serialization (message : String)
deriving DecidableEq, Repr

structure Error where
  details : ErrorDetails
deriving DecidableEq, Repr

/-! ## Request data model

`ModelInferenceRequest` lives in `inference/types`, outside the provided
sources; only its field list (in declaration order) is visible in the
`cache.rs` test.  Nested payloads (messages, tool config, output schema,
sampling parameters) are modelled by their serialized forms. -/

/-- Modelled from the spec: the JSON-mode setting of a request
(`ModelInferenceRequestJsonMode`; the test uses variant `Off`). -/
inductive JsonMode where
  | off
  | on
  | strict
deriving DecidableEq, Repr

/-- Modelled from the spec: the function kind of a request
(`FunctionType`; the test uses variant `Chat`). -/
inductive FunctionType where
  | chat
  | json
deriving DecidableEq, Repr

/-- Modelled from the spec: the structured inference request
(`ModelInferenceRequest`), with fields in the declaration order shown by
the `cache.rs` test; nested structures are carried as their serialized
JSON text. -/
structure ModelInferenceRequest where
  messages : List String
  system : Option String
  tool_config : Option String
  temperature : Option String
  top_p : Option String
  presence_penalty : Option String
  frequency_penalty : Option String
  max_tokens : Option Nat
  seed : Option Nat
  stream : Bool
  json_mode : JsonMode
  function_type : FunctionType
  output_schema : Option String
deriving DecidableEq, Repr

def jsonOfStrOpt : Option String → String
  | none => "null"
  | some s => "\"" ++ s ++ "\""

def jsonOfRaw : Option String → String
  | none => "null"
  | some s => s

def jsonOfNatOpt : Option Nat → String
  | none => "null"
  | some n => toString n

def jsonOfList : List String → String
  | [] => "[]"
  | x :: xs => "[" ++ x ++ String.join (xs.map (fun y => "," ++ y)) ++ "]"

def jsonOfJsonMode : JsonMode → String
  | JsonMode.off => "\"off\""
  | JsonMode.on => "\"on\""
  | JsonMode.strict => "\"strict\""

def jsonOfFunctionType : FunctionType → String
  | FunctionType.chat => "\"chat\""
  | FunctionType.json => "\"json\""

/-- Modelled from the spec: the part of the canonical (field-order-stable)
serialization of a request that precedes the value of the `stream` field. -/
def serializeBeforeStream (r : ModelInferenceRequest) : String :=
  "\x7b\"messages\":" ++ jsonOfList r.messages ++
  ",\"system\":" ++ jsonOfStrOpt r.system ++
  ",\"tool_config\":" ++ jsonOfRaw r.tool_config ++
  ",\"temperature\":" ++ jsonOfRaw r.temperature ++
  ",\"top_p\":" ++ jsonOfRaw r.top_p ++
  ",\"presence_penalty\":" ++ jsonOfRaw r.presence_penalty ++
  ",\"frequency_penalty\":" ++ jsonOfRaw r.frequency_penalty ++
  ",\"max_tokens\":" ++ jsonOfNatOpt r.max_tokens ++
  ",\"seed\":" ++ jsonOfNatOpt r.seed ++
  ",\"stream\":"

/-- Modelled from the spec: the part of the canonical serialization of a
request that follows the value of the `stream` field. -/
def serializeAfterStream (r : ModelInferenceRequest) : String :=
  ",\"json_mode\":" ++ jsonOfJsonMode r.json_mode ++
  ",\"function_type\":" ++ jsonOfFunctionType r.function_type ++
  ",\"output_schema\":" ++ jsonOfRaw r.output_schema ++ "\x7d"

/-- Modelled from the spec: the canonical, field-order-stable JSON
serialization of a request (`serde_json::to_string`): every field of the
request type participates, in declaration order; in particular the
streaming flag occupies a fixed position between the fields before and
after it. -/
def serializeRequest (r : ModelInferenceRequest) : String :=
  serializeBeforeStream r ++ (if r.stream then "true" else "false") ++
    serializeAfterStream r

/-- Modelled from the spec: `serde_json::to_string` on a request value,
with the error of the serializer carried as a message string.
Serialization of this request type is total (the spec requires a
canonical encoder for the whole type), so the fallible signature never
takes its error branch here. -/
def serdeToString (r : ModelInferenceRequest) : Except String String :=
  Except.ok (serializeRequest r)

/-! ## ModelProviderRequest and CacheKey (`cache.rs` lines 23-64) -/

structure ModelProviderRequest where
  request : ModelInferenceRequest
  model_name : String
  provider_name : String
deriving DecidableEq, Repr

/-- A `CacheKey` wraps a `[u8; 32]` digest: 32 bytes, each below 256. -/
structure CacheKey where
  bytes : List Nat
  length_eq : bytes.length = 32
  bytes_lt : ∀ b ∈ bytes, b < 256

theorem CacheKey.ext_bytes {k1 k2 : CacheKey} (h : k1.bytes = k2.bytes) :
    k1 = k2 := by
  cases k1
  cases k2
  simp_all

instance : DecidableEq CacheKey := fun k1 k2 =>
  if h : k1.bytes = k2.bytes then
    Decidable.isTrue (CacheKey.ext_bytes h)
  else
    Decidable.isFalse (fun he => h (congrArg CacheKey.bytes he))

/-- Unsigned little-endian interpretation of a byte list
(`u64::from_le_bytes` when the list has 8 bytes). -/
def leNatOfBytes : List Nat → Nat
  | [] => 0
  | b :: bs => b + 256 * leNatOfBytes bs

/-- Embeds `CacheKey::get_short_key`: reinterpret the first 8 bytes of the
digest as a little-endian u64; a failed 8-byte conversion (impossible for
a 32-byte digest) would become a `Cache` error. -/
def CacheKey.get_short_key (k : CacheKey) : Except Error Nat :=
  let bytes := k.bytes.take 8
  if bytes.length = 8 then
    Except.ok (leNatOfBytes bytes)
  else
    Except.error ⟨ErrorDetails.Cache
      "failed to convert hash into u64 for short cache key"⟩

/-- Lowercase hexadecimal digit for a value below 16 (`hex::encode`). -/
def hexDigitChar (n : Nat) : Char :=
  if n < 10 then Char.ofNat (48 + n) else Char.ofNat (87 + n)

/-- Lowercase hexadecimal encoding of a byte list (`hex::encode`). -/
def hexEncode (bs : List Nat) : String :=
  String.mk (bs.flatMap (fun b => [hexDigitChar (b / 16), hexDigitChar (b % 16)]))

/-- Embeds `CacheKey::get_long_key`: lowercase hex of the full digest. -/
def CacheKey.get_long_key (k : CacheKey) : String :=
  hexEncode k.bytes

/-- Value of a hexadecimal digit character, or `none` (hex decoding). -/
def hexDigitVal (c : Char) : Option Nat :=
  let n := c.toNat
  if 48 ≤ n ∧ n ≤ 57 then some (n - 48)
  else if 97 ≤ n ∧ n ≤ 102 then some (n - 87)
  else if 65 ≤ n ∧ n ≤ 70 then some (n - 55)
  else none

/-- Decode a list of hex digit characters, two per byte. -/
def hexDecodeChars : List Char → Option (List Nat)
  | [] => some []
  | [_] => none
  | c1 :: c2 :: cs =>
    match hexDigitVal c1, hexDigitVal c2, hexDecodeChars cs with
    | some h, some l, some rest => some ((16 * h + l) :: rest)
    | _, _, _ => none

/-- Decode a hexadecimal string into bytes. -/
def hexDecode (s : String) : Option (List Nat) :=
  hexDecodeChars s.data

/-- The byte stream fed to the BLAKE3 hasher by
`ModelProviderRequest::get_cache_key`: model-name bytes, a zero byte,
provider-name bytes, a zero byte, then the serialized request bytes. -/
def cacheKeyInput (model_name provider_name serialized_request : String) : List Nat :=
  strUtf8 model_name ++ [0] ++ strUtf8 provider_name ++ [0] ++
    strUtf8 serialized_request

theorem length_flatten_le4 (l : List Nat) :
    ((l.map leBytesOfWord).flatten).length = 4 * l.length := by
  induction l with
  | nil => simp
  | cons w ws ih =>
    simp [leBytesOfWord, ih]
    omega

theorem mem_flatten_le4_lt {l : List Nat} {b : Nat}
    (hb : b ∈ (l.map leBytesOfWord).flatten) : b < 256 := by
  induction l with
  | nil => simp at hb
  | cons w ws ih =>
    simp [leBytesOfWord] at hb
    rcases hb with h | h | h | h | h
    · omega
    · omega
    · omega
    · omega
    · exact ih (by simpa [leBytesOfWord] using h)

theorem blake3Compress_length (cv block : List Nat) (c bl f : Nat) :
    (blake3Compress cv block c bl f).length = 8 := by
  simp [blake3Compress]

theorem chunkFold_length (blocks : List (List Nat)) (cv : List Nat) (first : Bool)
    (hne : blocks ≠ []) : (chunkFold cv first blocks).length = 8 := by
  induction blocks generalizing cv first with
  | nil => exact absurd rfl hne
  | cons b rest ih =>
    cases rest with
    | nil => simp [chunkFold, blake3Compress_length]
    | cons b2 rest2 =>
      simpa [chunkFold] using ih _ false (by simp)

theorem splitBlocksAux_ne_nil (fuel : Nat) (msg : List Nat) :
    splitBlocksAux fuel msg ≠ [] := by
  cases fuel with
  | zero => simp [splitBlocksAux]
  | succ n =>
    rw [splitBlocksAux]
    by_cases h : msg.length ≤ 64 <;> simp [h]

theorem splitBlocks_ne_nil (msg : List Nat) : splitBlocks msg ≠ [] :=
  splitBlocksAux_ne_nil msg.length msg

theorem blake3OfBytes_length (msg : List Nat) : (blake3OfBytes msg).length = 32 := by
  unfold blake3OfBytes
  rw [length_flatten_le4, chunkFold_length _ _ _ (splitBlocks_ne_nil msg)]

theorem blake3OfBytes_lt (msg : List Nat) : ∀ b ∈ blake3OfBytes msg, b < 256 :=
  fun _ hb => mem_flatten_le4_lt hb

/-- The BLAKE3 digest of a byte string packaged as a `CacheKey`
(`hasher.finalize().into()`). -/
def blake3CacheKey (msg : List Nat) : CacheKey :=
  ⟨blake3OfBytes msg, blake3OfBytes_length msg, blake3OfBytes_lt msg⟩

/-- Embeds `ModelProviderRequest::get_cache_key`: hash the model name, a
zero byte, the provider name, a zero byte, and the serialized request; a
serialization failure becomes a `Serialization` error and no digest is
produced. -/
def ModelProviderRequest.get_cache_key (r : ModelProviderRequest) :
    Except Error CacheKey :=
  match serdeToString r.request with
  | Except.error e =>
      Except.error ⟨ErrorDetails.Serialization ("Failed to serialize request: " ++ e)⟩
  | Except.ok s =>
      Except.ok (blake3CacheKey (cacheKeyInput r.model_name r.provider_name s))

theorem get_cache_key_eq (r : ModelProviderRequest) :
    r.get_cache_key = Except.ok (blake3CacheKey
      (cacheKeyInput r.model_name r.provider_name (serializeRequest r.request))) :=
  rfl

/-! ## CacheOptions (`cache.rs` lines 9-21) -/

/-- Embeds `CacheOptions`: the per-operation cache policy. -/
structure CacheOptions where
  read : Bool
  write : Bool
  max_age_s : Option Nat
deriving DecidableEq, Repr

/-- Embeds `default_write`, the serde default for the `write` field. -/
def default_write : Bool := true

/-- Embeds serde deserialization of `CacheOptions` from caller-supplied
options: each argument is `none` when the field is omitted, in which case
its serde default applies (`#[serde(default)]` for `read` and `max_age_s`,
`#[serde(default = "default_write")]` for `write`). -/
def CacheOptions.deserialize (read : Option Bool) (write : Option Bool)
    (max_age_s : Option (Option Nat)) : CacheOptions :=
  { read := read.getD false
    write := write.getD default_write
    max_age_s := max_age_s.getD none }

/-- Embeds `#[derive(Default)]` on `CacheOptions`: the derived `Default`
uses the default of each field type (`false` for `bool`, `None` for
`Option`), ignoring the serde attributes. -/
def CacheOptions.derivedDefault : CacheOptions :=
  { read := false, write := false, max_age_s := none }

/-! ## Store rows and the store client

The analytics store client (`ClickHouseConnectionInfo`) is an external
collaborator per the spec; it is modelled by its two consumed operations. -/

/-- Modelled from the spec: one output content block, carried as its
serialized text (the concrete type lives in `inference/types`). -/
structure ContentBlock where
  text : String
deriving DecidableEq, Repr

/-- Embeds `ModelInferenceCacheRow`, the persisted cache row. -/
structure ModelInferenceCacheRow where
  short_cache_key : Nat
  long_cache_key : String
  output : List ContentBlock
  raw_request : String
  raw_response : String
deriving DecidableEq, Repr

/-- Embeds `CacheLookupResult`, the subset of row fields a read returns. -/
structure CacheLookupResult where
  output : List ContentBlock
  raw_request : String
  raw_response : String
deriving DecidableEq, Repr

/-- Modelled from the spec: the reconstructed response of a cache hit,
carrying the cached output and raw text plus the provider context of
the original request, marked as served from cache. -/
structure ModelInferenceResponse where
  output : List ContentBlock
  raw_request : String
  raw_response : String
  model_provider_name : String
  cached : Bool
deriving DecidableEq, Repr

/-- Modelled from the spec: `ModelInferenceResponse::from_cache` rebuilds
a response from a cache row plus the context of the original request and marks
it as a cache hit. -/
def ModelInferenceResponse.from_cache (result : CacheLookupResult)
    (_request : ModelInferenceRequest) (provider_name : String) :
    ModelInferenceResponse :=
  { output := result.output
    raw_request := result.raw_request
    raw_response := result.raw_response
    model_provider_name := provider_name
    cached := true }

/-- Modelled from the spec: the store client (external collaborator),
consumed through a parameterized query returning a serialized result set
and an append-only insert. -/
structure ClickHouseConnectionInfo where
  run_query : String → List (String × String) → Except Error String
  write : List ModelInferenceCacheRow → String → Except Error Unit

/-! ## Cache read path (`cache.rs` lines 115-178) -/

/-- The lookup query head shared by both variants: column selection and
the equality predicates on the narrow and wide keys. -/
def lookupQueryHead : String :=
  "\n            SELECT\n                output,\n                raw_request,\n                raw_response\n            FROM ModelInferenceCache\n            WHERE short_cache_key = \x7bshort_cache_key:UInt64\x7d\n                AND long_cache_key = \x7blong_cache_key:String\x7d"

/-- The freshness predicate present only in the bounded variant. -/
def freshnessClause : String :=
  "\n                AND timestamp > subtractSeconds(now(), \x7blookback_s:UInt32\x7d)"

/-- The lookup query tail shared by both variants: ordering, row limit,
and output format. -/
def lookupQueryTail : String :=
  "\n            ORDER BY timestamp DESC\n            LIMIT 1\n            FORMAT JSONEachRow\n        "

/-- Embeds the query selection of `cache_lookup`: the bounded template
when `max_age_s` is present, the unbounded one otherwise (both written
out in full as in the source). -/
def lookupQuery (max_age_s : Option Nat) : String :=
  if max_age_s.isSome then
    "\n            SELECT\n                output,\n                raw_request,\n                raw_response\n            FROM ModelInferenceCache\n            WHERE short_cache_key = \x7bshort_cache_key:UInt64\x7d\n                AND long_cache_key = \x7blong_cache_key:String\x7d\n                AND timestamp > subtractSeconds(now(), \x7blookback_s:UInt32\x7d)\n            ORDER BY timestamp DESC\n            LIMIT 1\n            FORMAT JSONEachRow\n        "
  else
    "\n            SELECT\n                output,\n                raw_request,\n                raw_response\n            FROM ModelInferenceCache\n            WHERE short_cache_key = \x7bshort_cache_key:UInt64\x7d\n                AND long_cache_key = \x7blong_cache_key:String\x7d\n            ORDER BY timestamp DESC\n            LIMIT 1\n            FORMAT JSONEachRow\n        "

/-- Embeds the query-parameter binding of `cache_lookup`: the narrow and
wide keys always, plus `lookback_s` exactly when a bound is given. -/
def lookupParams (short_cache_key long_cache_key : String)
    (max_age_s : Option Nat) : List (String × String) :=
  [("short_cache_key", short_cache_key), ("long_cache_key", long_cache_key)] ++
    (match max_age_s with
     | some lookback => [("lookback_s", toString lookback)]
     | none => [])

/-- Embeds `cache_lookup`.  `from_str` models the serde deserializer for
`CacheLookupResult` (derived outside the provided sources): `none` models
a deserialization failure.  An empty query result is a miss (`ok none`);
a non-empty result that fails to deserialize is a `Cache` error. -/
def cache_lookup (from_str : String → Option CacheLookupResult)
    (clickhouse_connection_info : ClickHouseConnectionInfo)
    (request : ModelProviderRequest) (max_age_s : Option Nat) :
    Except Error (Option ModelInferenceResponse) := do
  let cache_key ← request.get_cache_key
  let short_cache_key ← cache_key.get_short_key
  let long_cache_key := cache_key.get_long_key
  let query := lookupQuery max_age_s
  let query_params := lookupParams (toString short_cache_key) long_cache_key max_age_s
  let result ← clickhouse_connection_info.run_query query query_params
  if result = "" then
    return none
  match from_str result with
  | none => Except.error ⟨ErrorDetails.Cache "Failed to deserialize output"⟩
  | some lookup_result =>
      return some (ModelInferenceResponse.from_cache lookup_result
        request.request request.provider_name)

/-! ## Cache write path (`cache.rs` lines 75-105) -/

/-- Embeds `start_cache_write`.  The cache key is computed eagerly; the
row insert is handed to a detached task (`tokio::spawn`) whose outcome —
the value `clickhouse_client.write [row] "ModelInferenceCache"` — is
discarded, never awaited, and never reaches the return value seen by the caller. -/
def start_cache_write (clickhouse_client : ClickHouseConnectionInfo)
    (request : ModelProviderRequest) (output : List ContentBlock)
    (raw_request raw_response : String) : Except Error Unit := do
  let cache_key ← request.get_cache_key
  let short_cache_key ← cache_key.get_short_key
  let long_cache_key := cache_key.get_long_key
  let row : ModelInferenceCacheRow :=
    { short_cache_key := short_cache_key
      long_cache_key := long_cache_key
      output := output
      raw_request := raw_request
      raw_response := raw_response }
  let _detached := clickhouse_client.write [row] "ModelInferenceCache"
  return ()

/-! ## Concrete requests from the `test_get_cache_key` regression test -/

/-- The empty-message request of `test_get_cache_key`: all optional
fields unset, JSON mode `Off`, function type `Chat`, with the given
streaming flag. -/
def emptyRequest (stream : Bool) : ModelInferenceRequest :=
  { messages := [], system := none, tool_config := none, temperature := none,
    top_p := none, presence_penalty := none, frequency_penalty := none,
    max_tokens := none, seed := none, stream := stream,
    json_mode := JsonMode.off, function_type := FunctionType.chat,
    output_schema := none }

/-- The non-streaming request of `test_get_cache_key`. -/
def regressionOff : ModelProviderRequest :=
  { request := emptyRequest false, model_name := "test_model",
    provider_name := "test_provider" }

/-- The streaming request of `test_get_cache_key`. -/
def regressionOn : ModelProviderRequest :=
  { request := emptyRequest true, model_name := "test_model",
    provider_name := "test_provider" }

/-! ## Helper lemmas -/

theorem get_short_key_ok (k : CacheKey) :
    k.get_short_key = Except.ok (leNatOfBytes (k.bytes.take 8)) := by
  have hlen : (k.bytes.take 8).length = 8 := by
    rw [List.length_take, k.length_eq]
    decide
  simp [CacheKey.get_short_key, hlen]

theorem strUtf8_append (a b : String) :
    strUtf8 (a ++ b) = strUtf8 a ++ strUtf8 b := by
  simp [strUtf8, String.data_append]

theorem strUtf8_false : strUtf8 "false" = [102, 97, 108, 115, 101] := by decide

theorem strUtf8_true : strUtf8 "true" = [116, 114, 117, 101] := by decide

/-- The lowercase hexadecimal alphabet. -/
def lowercaseHexChars : List Char := "0123456789abcdef".data

theorem hexDigitChar_mem : ∀ n : Fin 16, hexDigitChar n.val ∈ lowercaseHexChars := by
  decide

theorem hexDigitVal_hexDigitChar :
    ∀ n : Fin 16, hexDigitVal (hexDigitChar n.val) = some n.val := by
  decide

theorem hexEncode_length (bs : List Nat) :
    (hexEncode bs).length = 2 * bs.length := by
  induction bs with
  | nil => rfl
  | cons b rest ih =>
    simp [hexEncode, String.length] at ih ⊢
    omega

theorem hexEncode_data_cons (b : Nat) (bs : List Nat) :
    (hexEncode (b :: bs)).data =
      hexDigitChar (b / 16) :: hexDigitChar (b % 16) :: (hexEncode bs).data := by
  simp [hexEncode]

theorem hexDecodeChars_pairs (bs : List Nat) (hb : ∀ b ∈ bs, b < 256) :
    hexDecodeChars
      (bs.flatMap (fun b => [hexDigitChar (b / 16), hexDigitChar (b % 16)])) =
      some bs := by
  induction bs with
  | nil => rfl
  | cons b rest ih =>
    have hblt : b < 256 := hb b (by simp)
    have e1 : hexDigitVal (hexDigitChar (b / 16)) = some (b / 16) :=
      hexDigitVal_hexDigitChar ⟨b / 16, by omega⟩
    have e2 : hexDigitVal (hexDigitChar (b % 16)) = some (b % 16) :=
      hexDigitVal_hexDigitChar ⟨b % 16, by omega⟩
    have ihr := ih (fun x hx => hb x (by simp [hx]))
    have hsplit : 16 * (b / 16) + b % 16 = b := by omega
    show (match hexDigitVal (hexDigitChar (b / 16)),
        hexDigitVal (hexDigitChar (b % 16)),
        hexDecodeChars
          (rest.flatMap fun x => [hexDigitChar (x / 16), hexDigitChar (x % 16)]) with
      | some h, some l, some r => some ((16 * h + l) :: r)
      | _, _, _ => none) = some (b :: rest)
    rw [e1, e2, ihr]
    simp [hsplit]

theorem hexDecode_hexEncode (bs : List Nat) (hb : ∀ b ∈ bs, b < 256) :
    hexDecode (hexEncode bs) = some bs :=
  hexDecodeChars_pairs bs hb

theorem hexEncode_chars_mem (bs : List Nat) (hb : ∀ b ∈ bs, b < 256) :
    ∀ c ∈ (hexEncode bs).data, c ∈ lowercaseHexChars := by
  induction bs with
  | nil => simp [hexEncode]
  | cons b rest ih =>
    intro c hc
    have hblt : b < 256 := hb b (by simp)
    rw [hexEncode_data_cons] at hc
    simp only [List.mem_cons] at hc
    rcases hc with rfl | rfl | hc'
    · exact hexDigitChar_mem ⟨b / 16, by omega⟩
    · exact hexDigitChar_mem ⟨b % 16, by omega⟩
    · exact ih (fun x hx => hb x (by simp [hx])) c hc'

theorem cacheKeyInput_cancel {m p s1 s2 : String}
    (h : cacheKeyInput m p s1 = cacheKeyInput m p s2) :
    strUtf8 s1 = strUtf8 s2 := by
  unfold cacheKeyInput at h
  simp only [List.append_assoc, List.singleton_append] at h
  have h2 := List.append_cancel_left h
  simp only [List.cons.injEq, true_and] at h2
  have h3 := List.append_cancel_left h2
  simpa using h3

/-- Requests that agree on every field other than the streaming flag. -/
def agreeOffStream (r1 r2 : ModelInferenceRequest) : Prop :=
  r1.messages = r2.messages ∧ r1.system = r2.system ∧
  r1.tool_config = r2.tool_config ∧ r1.temperature = r2.temperature ∧
  r1.top_p = r2.top_p ∧ r1.presence_penalty = r2.presence_penalty ∧
  r1.frequency_penalty = r2.frequency_penalty ∧
  r1.max_tokens = r2.max_tokens ∧ r1.seed = r2.seed ∧
  r1.json_mode = r2.json_mode ∧ r1.function_type = r2.function_type ∧
  r1.output_schema = r2.output_schema

theorem serializeRequest_stream_ne {r1 r2 : ModelInferenceRequest}
    (ha : agreeOffStream r1 r2) (h1 : r1.stream = false)
    (h2 : r2.stream = true) :
    strUtf8 (serializeRequest r1) ≠ strUtf8 (serializeRequest r2) := by
  obtain ⟨hm, hs, htc, ht, htp, hpp, hfp, hmt, hsd, hjm, hft, hos⟩ := ha
  have hbefore : serializeBeforeStream r1 = serializeBeforeStream r2 := by
    simp only [serializeBeforeStream, hm, hs, htc, ht, htp, hpp, hfp, hmt, hsd]
  have hafter : serializeAfterStream r1 = serializeAfterStream r2 := by
    simp only [serializeAfterStream, hjm, hft, hos]
  intro h
  rw [serializeRequest, serializeRequest, h1, h2, hbefore, hafter,
    if_neg Bool.false_ne_true, if_pos rfl] at h
  rw [strUtf8_append, strUtf8_append, strUtf8_append, strUtf8_append] at h
  simp only [List.append_assoc] at h
  have h4 := List.append_cancel_left h
  rw [strUtf8_false, strUtf8_true] at h4
  simp at h4

/-- Does the character list begin with the given pattern? -/
def listStartsWith : List Char → List Char → Bool
  | _, [] => true
  | [], _ :: _ => false
  | c :: cs, p :: ps => c = p && listStartsWith cs ps

/-- Does the pattern occur contiguously anywhere in the list? -/
def listHasSub : List Char → List Char → Bool
  | [], pat => pat.isEmpty
  | c :: cs, pat => listStartsWith (c :: cs) pat || listHasSub cs pat

/-- Does the pattern occur contiguously anywhere in the string? -/
def strHasSub (s pat : String) : Bool :=
  listHasSub s.data pat.data

/-- A fixed all-zero digest, used to exercise universally quantified
theorems at a concrete key. -/
def zeroKey : CacheKey :=
  ⟨List.replicate 32 0, by simp, by simp⟩

/-! ## Claims -/

/-- C6 counterexample: the claim asserts `write = true` is the default
however a `CacheOptions` is default-constructed, but the derived
`Default` implementation (field-wise defaults, ignoring the serde
attributes) yields `write = false`. -/
theorem cacheOptions_derived_default_write_not_true :
    ¬ (CacheOptions.derivedDefault.write = true) := by
  decide

/-- C6 (amended): a `CacheOptions` built from caller-supplied options
with all fields omitted has `read = false`, `write = true`, and
`max_age_s = none`; the derived `Default` construction, however, yields
`write = false`. -/
theorem cacheOptions_defaults :
    CacheOptions.deserialize none none none =
      { read := false, write := true, max_age_s := none } ∧
    CacheOptions.derivedDefault =
      { read := false, write := false, max_age_s := none } := by
  constructor <;> rfl

/-- C9: for every `CacheKey` (32 bytes by construction), `get_short_key`
returns `Ok` with the little-endian value of the first 8 bytes; the
error branch converting a failed 8-byte slice conversion is unreachable. -/
theorem get_short_key_never_errs :
    ∀ k : CacheKey,
      k.get_short_key = Except.ok (leNatOfBytes (k.bytes.take 8)) ∧
      ∀ e : Error, k.get_short_key ≠ Except.error e := by
  intro k
  refine ⟨get_short_key_ok k, ?_⟩
  intro e he
  rw [get_short_key_ok k] at he
  exact Except.noConfusion he

/-- C10: the wide key is lossless: hex-decoding `get_long_key` recovers
the digest bytes exactly, and hence keys with equal wide keys are equal. -/
theorem get_long_key_lossless :
    ∀ k1 k2 : CacheKey,
      hexDecode k1.get_long_key = some k1.bytes ∧
      (k1.get_long_key = k2.get_long_key → k1 = k2) := by
  intro k1 k2
  constructor
  · exact hexDecode_hexEncode k1.bytes k1.bytes_lt
  · intro h
    have d1 := hexDecode_hexEncode k1.bytes k1.bytes_lt
    have d2 := hexDecode_hexEncode k2.bytes k2.bytes_lt
    rw [show CacheKey.get_long_key k1 = hexEncode k1.bytes from rfl] at h
    rw [show CacheKey.get_long_key k2 = hexEncode k2.bytes from rfl] at h
    rw [h] at d1
    rw [d2] at d1
    exact CacheKey.ext_bytes (Option.some.injEq _ _ ▸ (d1 : _)).symm

/-- C10 witness at the all-zero digest. -/
theorem get_long_key_lossless_witness :
    hexDecode zeroKey.get_long_key = some zeroKey.bytes ∧ zeroKey = zeroKey :=
  ⟨(get_long_key_lossless zeroKey zeroKey).1,
   (get_long_key_lossless zeroKey zeroKey).2 rfl⟩

/-- C9 witness at the all-zero digest. -/
theorem get_short_key_never_errs_witness :
    zeroKey.get_short_key = Except.ok (leNatOfBytes (zeroKey.bytes.take 8)) ∧
    zeroKey.get_short_key ≠
      Except.error ⟨ErrorDetails.Cache
        "failed to convert hash into u64 for short cache key"⟩ :=
  ⟨(get_short_key_never_errs zeroKey).1,
   (get_short_key_never_errs zeroKey).2 _⟩

/-- C4: the narrow key is the little-endian u64 of the first 8 digest
bytes; the wide key is the 64-character lowercase hex encoding of the
full digest; re-deriving either form from the same `CacheKey` yields
identical results; and the narrow key equals the little-endian value of
the first 8 bytes recovered by decoding the wide key. -/
theorem short_long_key_derivation :
    ∀ k : CacheKey,
      k.get_short_key = Except.ok (leNatOfBytes (k.bytes.take 8)) ∧
      k.get_long_key = hexEncode k.bytes ∧
      (k.get_long_key).length = 64 ∧
      (∀ c ∈ (k.get_long_key).data, c ∈ lowercaseHexChars) ∧
      k.get_short_key = k.get_short_key ∧
      k.get_long_key = k.get_long_key ∧
      ∃ bs, hexDecode k.get_long_key = some bs ∧
        k.get_short_key = Except.ok (leNatOfBytes (bs.take 8)) := by
  intro k
  refine ⟨get_short_key_ok k, rfl, ?_, ?_, rfl, rfl, ?_⟩
  · show (hexEncode k.bytes).length = 64
    rw [hexEncode_length, k.length_eq]
  · exact hexEncode_chars_mem k.bytes k.bytes_lt
  · exact ⟨k.bytes, hexDecode_hexEncode k.bytes k.bytes_lt,
      get_short_key_ok k⟩

/-- C4 witness at the all-zero digest. -/
theorem short_long_key_derivation_witness :
    zeroKey.get_short_key = Except.ok (leNatOfBytes (zeroKey.bytes.take 8)) ∧
    (zeroKey.get_long_key).length = 64 :=
  ⟨(short_long_key_derivation zeroKey).1,
   (short_long_key_derivation zeroKey).2.2.1⟩

/-- C3: `get_cache_key` is deterministic: requests with equal model
names, equal provider names, and byte-identical canonical serializations
receive the same result, which is an `Ok` holding a 32-byte digest; a
repeated run on the same input returns the identical value. -/
theorem get_cache_key_deterministic :
    ∀ r1 r2 : ModelProviderRequest,
      r1.model_name = r2.model_name →
      r1.provider_name = r2.provider_name →
      serializeRequest r1.request = serializeRequest r2.request →
      r1.get_cache_key = r2.get_cache_key ∧
      r1.get_cache_key = r1.get_cache_key ∧
      ∃ k : CacheKey, r1.get_cache_key = Except.ok k ∧ k.bytes.length = 32 := by
  intro r1 r2 hm hp hs
  refine ⟨?_, rfl, ?_⟩
  · rw [get_cache_key_eq, get_cache_key_eq, hm, hp, hs]
  · exact ⟨_, get_cache_key_eq r1,
      blake3OfBytes_length _⟩

/-- C3 witness: the two regression requests of `test_get_cache_key` with
the streaming flag aligned are mapped to the same digest. -/
theorem get_cache_key_deterministic_witness :
    regressionOff.get_cache_key = regressionOff.get_cache_key ∧
    ∃ k : CacheKey, regressionOff.get_cache_key = Except.ok k ∧
      k.bytes.length = 32 :=
  ⟨(get_cache_key_deterministic regressionOff regressionOff rfl rfl rfl).1,
   (get_cache_key_deterministic regressionOff regressionOff rfl rfl rfl).2.2⟩

set_option maxRecDepth 10000

set_option maxHeartbeats 2000000

/-- C1: changing only the streaming flag changes the cache key: for any
model and provider names and any two requests identical except for the
streaming flag, the byte streams fed to the hash differ; and on the
regression pair (empty-message request, all other fields unset) the
two BLAKE3 digests returned by `get_cache_key` are different. -/
theorem cache_key_stream_sensitive :
    (∀ (m p : String) (r1 r2 : ModelInferenceRequest),
      agreeOffStream r1 r2 → r1.stream = false → r2.stream = true →
      cacheKeyInput m p (serializeRequest r1) ≠
        cacheKeyInput m p (serializeRequest r2)) ∧
    regressionOff.get_cache_key ≠ regressionOn.get_cache_key := by
  constructor
  · intro m p r1 r2 ha h1 h2 h
    exact serializeRequest_stream_ne ha h1 h2 (cacheKeyInput_cancel h)
  · intro h
    rw [get_cache_key_eq, get_cache_key_eq] at h
    injection h with h'
    have hb : blake3OfBytes (cacheKeyInput "test_model" "test_provider"
          (serializeRequest (emptyRequest false))) ≠
        blake3OfBytes (cacheKeyInput "test_model" "test_provider"
          (serializeRequest (emptyRequest true))) := by decide
    exact hb (congrArg CacheKey.bytes h')

/-- C1 witness: the regression pair instantiates the universal part. -/
theorem cache_key_stream_sensitive_witness :
    cacheKeyInput "test_model" "test_provider"
        (serializeRequest (emptyRequest false)) ≠
      cacheKeyInput "test_model" "test_provider"
        (serializeRequest (emptyRequest true)) :=
  cache_key_stream_sensitive.1 "test_model" "test_provider"
    (emptyRequest false) (emptyRequest true)
    ⟨rfl, rfl, rfl, rfl, rfl, rfl, rfl, rfl, rfl, rfl, rfl, rfl⟩ rfl rfl

/-- C2: prefix-freedom: for every request body, the byte streams hashed
for `("a", "bc")` and `("ab", "c")` are distinct (the zero byte after
each name separates the parts), and on the empty-message request the two
digests returned by `get_cache_key` are different. -/
theorem cache_key_prefix_free :
    (∀ r : ModelInferenceRequest,
      cacheKeyInput "a" "bc" (serializeRequest r) ≠
        cacheKeyInput "ab" "c" (serializeRequest r)) ∧
    (ModelProviderRequest.mk (emptyRequest false) "a" "bc").get_cache_key ≠
      (ModelProviderRequest.mk (emptyRequest false) "ab" "c").get_cache_key := by
  constructor
  · intro r h
    have e1 : strUtf8 "a" = [97] := by decide
    have e2 : strUtf8 "bc" = [98, 99] := by decide
    have e3 : strUtf8 "ab" = [97, 98] := by decide
    have e4 : strUtf8 "c" = [99] := by decide
    unfold cacheKeyInput at h
    rw [e1, e2, e3, e4] at h
    simp only [List.append_assoc, List.cons_append, List.nil_append] at h
    have h1 := congrArg (fun l => l.getD 1 0) h
    simp only [List.getD_cons_succ, List.getD_cons_zero] at h1
    exact absurd h1 (by decide)
  · intro h
    rw [get_cache_key_eq, get_cache_key_eq] at h
    injection h with h'
    have hb : blake3OfBytes (cacheKeyInput "a" "bc"
          (serializeRequest (emptyRequest false))) ≠
        blake3OfBytes (cacheKeyInput "ab" "c"
          (serializeRequest (emptyRequest false))) := by decide
    exact hb (congrArg CacheKey.bytes h')

/-- C2 witness: the empty-message request instantiates the universal
part. -/
theorem cache_key_prefix_free_witness :
    cacheKeyInput "a" "bc" (serializeRequest (emptyRequest false)) ≠
      cacheKeyInput "ab" "c" (serializeRequest (emptyRequest false)) :=
  cache_key_prefix_free.1 (emptyRequest false)

/-- A store stub whose queries always return the empty result set. -/
def missConn : ClickHouseConnectionInfo :=
  { run_query := fun _ _ => Except.ok "", write := fun _ _ => Except.ok () }

/-- A store stub whose queries return a non-empty, undeserializable row. -/
def corruptConn : ClickHouseConnectionInfo :=
  { run_query := fun _ _ => Except.ok "bad", write := fun _ _ => Except.ok () }

/-- A store stub whose inserts fail. -/
def failWriteConn : ClickHouseConnectionInfo :=
  { run_query := fun _ _ => Except.ok "",
    write := fun _ _ => Except.error ⟨ErrorDetails.Cache "insert failed"⟩ }

/-- C5: `cache_lookup` distinguishes a miss from corruption: an empty
query result is `Ok none` (a miss, not an error), and a non-empty result
that fails to deserialize is a `Cache` error rather than `none`. -/
theorem cache_lookup_miss_vs_corruption :
    ∀ (from_str : String → Option CacheLookupResult)
      (conn : ClickHouseConnectionInfo) (req : ModelProviderRequest)
      (o : Option Nat),
      ((∀ q ps, conn.run_query q ps = Except.ok "") →
        cache_lookup from_str conn req o = Except.ok none) ∧
      (∀ s, (∀ q ps, conn.run_query q ps = Except.ok s) → s ≠ "" →
        from_str s = none →
        cache_lookup from_str conn req o =
          Except.error ⟨ErrorDetails.Cache "Failed to deserialize output"⟩) := by
  intro from_str conn req o
  constructor
  · intro hq
    simp [cache_lookup, get_cache_key_eq, get_short_key_ok, hq, bind,
      Except.bind, pure, Except.pure]
  · intro s hq hs hp
    simp [cache_lookup, get_cache_key_eq, get_short_key_ok, hq, hs, hp,
      bind, Except.bind, pure, Except.pure]

/-- C5 witness: a miss on an always-empty store and a `Cache` error on an
undeserializable row. -/
theorem cache_lookup_miss_vs_corruption_witness :
    cache_lookup (fun _ => none) missConn regressionOff none = Except.ok none ∧
    cache_lookup (fun _ => none) corruptConn regressionOff none =
      Except.error ⟨ErrorDetails.Cache "Failed to deserialize output"⟩ :=
  ⟨(cache_lookup_miss_vs_corruption (fun _ => none) missConn
      regressionOff none).1 (fun _ _ => rfl),
   (cache_lookup_miss_vs_corruption (fun _ => none) corruptConn
      regressionOff none).2 "bad" (fun _ _ => rfl) (by decide) rfl⟩

/-- C8: `start_cache_write` fails only when the cache-key computation
fails; once the key is computed it returns `Ok ()`, and the outcome of
the detached store insert never reaches the caller (the return value is
the same for any two store clients, whatever their insert behaviour). -/
theorem start_cache_write_semantics :
    ∀ (c1 c2 : ClickHouseConnectionInfo) (req : ModelProviderRequest)
      (output : List ContentBlock) (raw_request raw_response : String),
      start_cache_write c1 req output raw_request raw_response =
        start_cache_write c2 req output raw_request raw_response ∧
      start_cache_write c1 req output raw_request raw_response = Except.ok () ∧
      ((∃ e, start_cache_write c1 req output raw_request raw_response =
          Except.error e) ↔ (∃ e, req.get_cache_key = Except.error e)) := by
  intro c1 c2 req output rreq rresp
  have hok : ∀ c : ClickHouseConnectionInfo,
      start_cache_write c req output rreq rresp = Except.ok () := by
    intro c
    simp [start_cache_write, get_cache_key_eq, get_short_key_ok, bind,
      Except.bind, pure, Except.pure]
  refine ⟨(hok c1).trans (hok c2).symm, hok c1, ?_, ?_⟩
  · rintro ⟨e, he⟩
    rw [hok c1] at he
    exact absurd he (by simp)
  · rintro ⟨e, he⟩
    rw [get_cache_key_eq] at he
    exact absurd he (by simp)

/-- C8 witness: the caller sees the identical `Ok ()` whether the store
insert of the store client succeeds or fails. -/
theorem start_cache_write_semantics_witness :
    start_cache_write missConn regressionOff [] "" "" =
      start_cache_write failWriteConn regressionOff [] "" "" ∧
    start_cache_write missConn regressionOff [] "" "" = Except.ok () :=
  ⟨(start_cache_write_semantics missConn failWriteConn
      regressionOff [] "" "").1,
   (start_cache_write_semantics missConn failWriteConn
      regressionOff [] "" "").2.1⟩

/-- C7: the two lookup query templates differ exactly in the freshness
predicate, which is present if and only if `max_age_s` is given, in which
case `lookback_s` is bound to that value; both variants select the same
three columns, test equality on both the narrow and wide keys, order by
timestamp descending, and limit to one row. -/
theorem lookup_query_shape :
    ∀ (o : Option Nat) (short long : String),
      lookupQuery o = lookupQueryHead ++
        (if o.isSome then freshnessClause else "") ++ lookupQueryTail ∧
      (strHasSub (lookupQuery o) freshnessClause = true ↔ o.isSome = true) ∧
      lookupParams short long o =
        [("short_cache_key", short), ("long_cache_key", long)] ++
          (match o with
           | some lookback => [("lookback_s", toString lookback)]
           | none => []) ∧
      strHasSub (lookupQuery o)
        "SELECT\n                output,\n                raw_request,\n                raw_response" = true ∧
      strHasSub (lookupQuery o)
        "short_cache_key = \x7bshort_cache_key:UInt64\x7d" = true ∧
      strHasSub (lookupQuery o)
        "long_cache_key = \x7blong_cache_key:String\x7d" = true ∧
      strHasSub (lookupQuery o) "ORDER BY timestamp DESC" = true ∧
      strHasSub (lookupQuery o) "LIMIT 1" = true := by
  intro o short long
  cases o with
  | none =>
    exact ⟨rfl, by decide, rfl, by decide, by decide, by decide, by decide,
      by decide⟩
  | some lookback =>
    have hq : lookupQuery (some lookback) = lookupQuery (some 0) := rfl
    refine ⟨rfl, iff_of_true (by rw [hq]; decide) rfl, rfl, ?_, ?_, ?_, ?_, ?_⟩
      <;> rw [hq]
    · decide
    · decide
    · decide
    · decide
    · decide

/-- C7 witness: the freshness predicate appears in the bounded template
and is absent from the unbounded one. -/
theorem lookup_query_shape_witness :
    strHasSub (lookupQuery (some 3600)) freshnessClause = true ∧
    strHasSub (lookupQuery none) freshnessClause = false := by
  constructor
  · exact (lookup_query_shape (some 3600) "s" "l").2.1.mpr rfl
  · have h := (lookup_query_shape none "s" "l").2.1
    cases hc : strHasSub (lookupQuery none) freshnessClause
    · rfl
    · exact absurd (h.mp hc) (by decide)
